import Mathlib

/-!
Shallow embedding of the nx connection-multiplexer core: protocol
classification (internal/mux/server.go), the shutdown-error predicate and
listener-loop supervisor (internal/common/network.go), the Unix-socket
manager and connection bridge (pkg/socket/manager.go), and the shell
session handler (internal/protocols/shell.go).

Go strings are modelled as Lean String values; raw byte prefixes are
modelled as List Char (the matchers only inspect ASCII bytes, and the
binary bytes of the spec examples are written with Char.ofNat).
Stateful or effectful code is modelled as pure functions over explicit
environment records that carry the outcome of each external interaction
(accept results, copy-goroutine results, filesystem state, ...).
-/

deriving instance DecidableEq for Except

namespace Nx

/-- Boolean test that `h` starts with `n` (models Go `strings.HasPrefix` /
cmux byte-prefix matching), written recursively over lists of chars. -/
def startsWithL (n h : List Char) : Bool :=
  match n, h with
  | [], _ => true
  | _ :: _, [] => false
  | a :: as, b :: bs => a == b && startsWithL as bs

/-- Boolean substring test: `containsSub n h` holds when `n` occurs
contiguously inside `h` (models Go `strings.Contains h n`). -/
def containsSub (n : List Char) : List Char → Bool
  | [] => n.isEmpty
  | c :: cs => startsWithL n (c :: cs) || containsSub n cs

/-- Go `strings.Contains(s, sub)`. -/
def goContains (s sub : String) : Bool :=
  containsSub sub.toList s.toList

/-! ### Protocol classification (internal/mux/server.go, Server.Start)

`Server.Start` registers three cmux matchers in order:
`cmux.PrefixMatcher("SSH-")`, then `cmux.HTTP1Fast(httpMethods...)` with
the extra methods listed below, then `cmux.Any()`; cmux applies them
first-match-wins in registration order.  The matcher internals live in
the third-party cmux library (not part of this repository's sources), so
their semantics are modelled from the spec: the SSH matcher tests the
literal byte prefix, the HTTP matcher tests for the start of an
HTTP/1.x request line (a recognized method token followed by a space),
and `Any` accepts everything. -/

/-- The protocol classes assigned by the dispatcher. -/
inductive ProtocolClass
  | SSH
  | HTTP
  | SHELL
deriving DecidableEq, Repr

/-- The extra HTTP methods passed to `cmux.HTTP1Fast` in `Server.Start`
(standard HTTP verbs plus the WebDAV methods), verbatim from
internal/mux/server.go. -/
def serverHTTPMethods : List String :=
  ["GET", "POST", "PUT", "DELETE", "HEAD", "OPTIONS", "PATCH",
   "PROPFIND", "PROPPATCH", "MKCOL", "COPY", "MOVE", "LOCK", "UNLOCK"]

/-- Modelled from the spec: the full method set recognized by the HTTP
matcher — the HTTP/1.x standard verbs recognized by the cmux library by
default together with the extra methods supplied by `Server.Start`. -/
def httpMethods : List String :=
  ["OPTIONS", "TRACE", "CONNECT"] ++ serverHTTPMethods

/-- The SSH matcher: `cmux.PrefixMatcher("SSH-")`. -/
def matchSSH (p : List Char) : Bool :=
  startsWithL "SSH-".toList p

/-- Modelled from the spec: the HTTP matcher accepts a byte prefix that
forms the start of a well-formed HTTP/1.x request line, i.e. one that
begins with a recognized method token followed by a space. -/
def matchHTTPReqLine (p : List Char) : Bool :=
  httpMethods.any (fun m => startsWithL (m.toList ++ [' ']) p)

/-- The catch-all matcher `cmux.Any()`: accepts every prefix. -/
def matchAny (_ : List Char) : Bool :=
  true

/-- Ordered first-match-wins classification of a peeked byte prefix, in
the registration order of `Server.Start`: SSH, then HTTP, then the
catch-all SHELL class. -/
def classify (p : List Char) : ProtocolClass :=
  if matchSSH p then .SSH
  else if matchHTTPReqLine p then .HTTP
  else if matchAny p then .SHELL
  else .SHELL

/-! ### Shutdown-error predicate and listener loop (internal/common/network.go) -/

/-- `IsShutdownError` from internal/common/network.go: false for a nil
error, and for a non-nil error true exactly when the error message
contains one of the three substrings tested by the source. -/
def IsShutdownError : Option String → Bool
  | none => false
  | some s =>
      goContains s "use of closed network connection" ||
      goContains s "closed" ||
      goContains s "server closed"

/-- One iteration's worth of interaction with `listener.Accept()` in
`HandleListenerLoop`: either a connection was accepted (carrying the
error its handler eventually returns in its own goroutine), or `Accept`
returned an error (carrying whether `ctx.Done()` was already closed at
the select that follows, and the error's message). -/
inductive AcceptEvent
  | conn (handlerErr : Option String)
  | acceptErr (ctxDone : Bool) (m : String)
deriving DecidableEq, Repr

/-- How the supervised loop ended, when it ended. -/
inductive LoopExit
  | ctxDone
  | shutdown (m : String)
deriving DecidableEq, Repr

/-- Observable outcome of running `HandleListenerLoop` against a finite
trace of accept events: `result` is `none` while the loop is still
accepting (it consumed every event without returning); `backoffMs`
accumulates the fixed 100 ms sleeps taken on transient accept errors;
`handlerErrorsLogged` counts handler errors logged by the per-connection
goroutines; `accepted` counts connections handed to the handler. -/
structure LoopTrace where
  result : Option LoopExit
  backoffMs : Nat
  handlerErrorsLogged : Nat
  accepted : Nat
deriving DecidableEq, Repr

/-- `HandleListenerLoop` from internal/common/network.go, as a function
of the trace of accept events.  An accepted connection is handled in its
own goroutine (its error only logged) and the loop continues; on an
accept error the loop first checks `ctx.Done()` and returns `ctx.Err()`,
then returns the error itself when `IsShutdownError` matches it, and
otherwise logs, sleeps 100 ms and continues. -/
def HandleListenerLoop : List AcceptEvent → LoopTrace
  | [] => ⟨none, 0, 0, 0⟩
  | .conn he :: rest =>
      let t := HandleListenerLoop rest
      ⟨t.result, t.backoffMs,
       (if he.isSome then 1 else 0) + t.handlerErrorsLogged, t.accepted + 1⟩
  | .acceptErr cd m :: rest =>
      if cd then ⟨some .ctxDone, 0, 0, 0⟩
      else if IsShutdownError (some m) then ⟨some (.shutdown m), 0, 0, 0⟩
      else
        let t := HandleListenerLoop rest
        ⟨t.result, 100 + t.backoffMs, t.handlerErrorsLogged, t.accepted⟩

/-! ### Go error values

A small model of the Go error values the core manipulates.  The context
sentinels are distinguished constructors because the source compares a
returned error against `context.Canceled` by identity; other errors carry
their message, and `wrap pre e` models `fmt.Errorf(pre ++ ": %w", e)`. -/

/-- Go error values as manipulated by the core paths under study. -/
inductive GoError
  | ctxCanceled
  | ctxDeadlineExceeded
  | msg (s : String)
  | wrap (pre : String) (inner : GoError)
deriving DecidableEq, Repr

/-! ### Bidirectional bridge (pkg/socket/manager.go, Manager.BridgeConnections)

`BridgeConnections(ctx, tcpConn, unixListener)` first defers
`unixListener.Close()`, then calls `unixListener.Accept()` — with no
select on `ctx.Done()` around that call — and on accept success starts
the two copy goroutines and selects on `ctx.Done()` and the two copy
channels.  The environment records the outcome of each of those
interactions: `acceptOutcome = none` models an `Accept` call that never
returns (no peer ever connects and nothing else closes the listener);
`ctxDoneBeforeAccept` records whether the context was already cancelled
when `Accept` was entered — the source never consults the context there,
so the function does not read this field; `firstEvent` is whichever of
the three select arms fires first, and `secondEvent` is the eventual
outcome of the other copy direction, which the source never waits for. -/

/-- The two copy directions of the bridge. -/
inductive CopyDir
  | tcpToUnix
  | unixToTcp
deriving DecidableEq, Repr

/-- The select arm that fires first once both copy goroutines run:
either `ctx.Done()` or one copy direction finishing with its
`io.Copy` error (`none` on clean EOF). -/
inductive BridgeEvent
  | ctxFired
  | copyDone (d : CopyDir) (e : Option GoError)
deriving DecidableEq, Repr

/-- Environment of one `BridgeConnections` call. -/
structure BridgeEnv where
  ctxDoneBeforeAccept : Bool
  acceptOutcome : Option (Except GoError Unit)
  ctxErr : GoError
  firstEvent : BridgeEvent
  secondEvent : BridgeEvent
deriving DecidableEq, Repr

/-- What a returning `BridgeConnections` call produced: the returned
error (`none` = nil) and whether the deferred `unixListener.Close()`
ran. -/
structure BridgeReturn where
  result : Option GoError
  listenerClosed : Bool
deriving DecidableEq, Repr

/-- `Manager.BridgeConnections` from pkg/socket/manager.go.  The outer
`Option` is `none` when the call never returns (blocked forever in
`unixListener.Accept()`); on every returning path the deferred close of
the listener has run.  An accept failure returns the wrapped
"failed to accept unix connection" error; after a successful accept the
function returns the context's error if `ctx.Done()` wins the select,
and otherwise the finishing copy direction's error. -/
def BridgeConnections (env : BridgeEnv) : Option BridgeReturn :=
  match env.acceptOutcome with
  | none => none
  | some (.error e) => some ⟨some (.wrap "failed to accept unix connection" e), true⟩
  | some (.ok _) =>
      match env.firstEvent with
      | .ctxFired => some ⟨some env.ctxErr, true⟩
      | .copyDone _ e => some ⟨e, true⟩

/-! ### Unix-socket temp-name allocation (pkg/socket/manager.go)

`Manager.GenerateTempFilename` calls `os.CreateTemp(m.socketDir,
"*.sock")`, closes the returned file and immediately removes it,
returning its name.  `os.CreateTemp` is Go standard-library code; it is
modelled from its documented behaviour: it draws random candidate names,
substitutes each for the `*` of the pattern, and exclusively creates the
first candidate whose path does not already exist.  The filesystem is a
list of existing paths (real paths are unique, so removal filters out
every occurrence), and the randomness source is an explicit list of
candidate names threaded through the calls. -/

/-- Paths are modelled as lists of chars. -/
abbrev Path := List Char

/-- The path `socketDir ++ "/" ++ r ++ ".sock"` that `os.CreateTemp`
builds from the pattern `*.sock` for the random candidate `r`. -/
def mkSockPath (dir r : Path) : Path :=
  dir ++ ('/' :: (r ++ ".sock".toList))

/-- Filesystem state: the set of existing paths. -/
structure FsState where
  files : List Path
deriving DecidableEq, Repr

/-- Whether a path exists. -/
def fileExists (p : Path) (fs : FsState) : Bool :=
  fs.files.contains p

/-- `os.Remove`: the path no longer exists afterwards. -/
def removeFile (p : Path) (fs : FsState) : FsState :=
  ⟨fs.files.filter (fun q => !(q == p))⟩

/-- Exclusive file creation. -/
def createFile (p : Path) (fs : FsState) : FsState :=
  ⟨p :: fs.files⟩

/-- Modelled from the Go standard library: `os.CreateTemp(dir, "*.sock")`
tries random candidate names in order, skipping any whose path already
exists, and exclusively creates the first free one.  Returns the chosen
candidate, the filesystem after creation, and the unconsumed candidates;
`none` models the allocator giving up (it retries only finitely often). -/
def createTemp (dir : Path) (fs : FsState) : List Path → Option (Path × FsState × List Path)
  | [] => none
  | r :: rs =>
      if fileExists (mkSockPath dir r) fs then createTemp dir fs rs
      else some (r, createFile (mkSockPath dir r) fs, rs)

/-- `Manager.GenerateTempFilename` from pkg/socket/manager.go: create a
temp file with pattern `*.sock` in the socket directory, close and
immediately remove it, and return its path.  Returns the path, the
filesystem at return time, and the remaining randomness. -/
def GenerateTempFilename (dir : Path) (fs : FsState) (rand : List Path) :
    Option (Path × FsState × List Path) :=
  match createTemp dir fs rand with
  | none => none
  | some (r, fs1, rest) =>
      some (mkSockPath dir r, removeFile (mkSockPath dir r) fs1, rest)

/-! ### Shell session handler (internal/protocols/shell.go)

`handleShellConnection` is modelled as a pure function of an environment
recording the outcome of each collaborator call it makes, in source
order: the nil checks on the socket and tmux managers, then
`GenerateTempFilename`, `CreateUnixListener`, the background
`BridgeConnections` goroutine (whose eventual result arrives on the
`bridgeDone` channel), `CreateWindow`, `ExecuteInWindow` for the socat
relay command, the ignored environment-variable injection, the optional
plugin execution, and finally the blocking receive from `bridgeDone`. -/

/-- The configuration fields consulted by the shell handler
(internal/config/config.go). -/
structure ShellConfig where
  Auto : Bool
  Exec : String
deriving DecidableEq, Repr

/-- Outcomes of the collaborator calls made by one
`handleShellConnection` run.  `socketManagerNil` / `tmuxManagerNil`
model the handler's dependency pointers being nil. -/
structure ShellEnv where
  socketManagerNil : Bool
  tmuxManagerNil : Bool
  genTempResult : Except GoError String
  createListenerResult : Except GoError Unit
  createWindowResult : Except GoError Nat
  socatResult : Option GoError
  envCmdResult : Option GoError
  pluginResult : Option GoError
  bridgeResult : Option GoError
  cfg : ShellConfig
deriving DecidableEq, Repr

/-- Observable outcome of `handleShellConnection`: the returned error
and which side effects were performed (which collaborator calls were
made, which plugin script was executed, and what was logged). -/
structure ShellReturn where
  result : Option GoError
  genTempCalled : Bool
  createListenerCalled : Bool
  bridgeStarted : Bool
  createWindowCalled : Bool
  socatCalled : Bool
  pluginExecuted : Option String
  pluginErrorLogged : Bool
  bridgeWarnLogged : Bool
deriving DecidableEq, Repr

/-- The plugin-selection logic of handleShellConnection:
`execPlugin := h.config.Exec; if h.config.Auto { execPlugin = "auto" }`. -/
def resolveExecPlugin (cfg : ShellConfig) : String :=
  if cfg.Auto then "auto" else cfg.Exec

/-- `handleShellConnection` from internal/protocols/shell.go.  Nil
manager checks come first and return descriptive errors before any other
call; each failing setup step returns its wrapped error; on the full
success path the plugin (if any) runs with its error only logged, the
function blocks on the bridge result, logs a warning for any bridge
error other than `context.Canceled`, and returns nil. -/
def handleShellConnection (env : ShellEnv) : ShellReturn :=
  if env.socketManagerNil then
    ⟨some (.msg "socket manager not initialized - shell functionality disabled"),
     false, false, false, false, false, none, false, false⟩
  else if env.tmuxManagerNil then
    ⟨some (.msg "tmux manager not initialized - shell functionality disabled"),
     false, false, false, false, false, none, false, false⟩
  else
    match env.genTempResult with
    | .error e =>
        ⟨some (.wrap "failed to generate socket filename" e),
         true, false, false, false, false, none, false, false⟩
    | .ok _ =>
        match env.createListenerResult with
        | .error e =>
            ⟨some (.wrap "failed to create unix listener" e),
             true, true, false, false, false, none, false, false⟩
        | .ok _ =>
            match env.createWindowResult with
            | .error e =>
                ⟨some (.wrap "failed to create tmux window" e),
                 true, true, true, true, false, none, false, false⟩
            | .ok _ =>
                match env.socatResult with
                | some e =>
                    ⟨some (.wrap "failed to execute socat command" e),
                     true, true, true, true, true, none, false, false⟩
                | none =>
                    let ep := resolveExecPlugin env.cfg
                    ⟨none, true, true, true, true, true,
                     (if ep == "" then none else some ep),
                     (!(ep == "") && env.pluginResult.isSome),
                     (env.bridgeResult.isSome && !(env.bridgeResult == some .ctxCanceled))⟩

/-!
## Theorems
-/

/-- C1: Protocol classification is a deterministic, first-match-wins
function of the peeked byte prefix with predicate order SSH then HTTP
then SHELL: every prefix beginning with "SSH-" classifies SSH; otherwise
a prefix forming an HTTP/1.x request line with a recognized method
classifies HTTP; every other prefix classifies SHELL (the catch-all);
repeated classification of the same prefix yields the same class; and
the spec's four example prefixes classify SSH, HTTP, HTTP and SHELL. -/
theorem classify_first_match (p : List Char) :
    (matchSSH p = true → classify p = .SSH) ∧
    (matchSSH p = false → matchHTTPReqLine p = true → classify p = .HTTP) ∧
    (matchSSH p = false → matchHTTPReqLine p = false → classify p = .SHELL) ∧
    classify p = classify p ∧
    classify "SSH-2.0-OpenSSH_9.0\r\n".toList = .SSH ∧
    classify "GET / HTTP/1.1\r\n".toList = .HTTP ∧
    classify "PROPFIND / HTTP/1.1\r\n".toList = .HTTP ∧
    classify (Char.ofNat 2 :: Char.ofNat 3 :: "randombytes".toList) = .SHELL := by
  refine ⟨?_, ?_, ?_, rfl, by decide, by decide, by decide, by decide⟩
  · intro h
    simp [classify, h]
  · intro h1 h2
    simp [classify, h1, h2]
  · intro h1 h2
    simp [classify, matchAny, h1, h2]

/-- Witness for C1 at a concrete prefix. -/
theorem classify_first_match_witness :
    matchSSH "SSH-2.0-OpenSSH_9.0\r\n".toList = true ∧
    classify "SSH-2.0-OpenSSH_9.0\r\n".toList = .SSH :=
  ⟨by decide, (classify_first_match "SSH-2.0-OpenSSH_9.0\r\n".toList).1 (by decide)⟩

/-- C9: `IsShutdownError` returns false for nil and, for a non-nil
error, true exactly when the message contains one of the substrings
"use of closed network connection", "closed" or "server closed"; in
particular any message containing "closed" anywhere is classified as a
shutdown signal, and such an accept error terminates the listener loop
(returning that error) instead of being retried. -/
theorem isShutdownError_spec :
    IsShutdownError none = false ∧
    (∀ s, IsShutdownError (some s) =
      (goContains s "use of closed network connection" || goContains s "closed" ||
       goContains s "server closed")) ∧
    (∀ s, goContains s "closed" = true → IsShutdownError (some s) = true) ∧
    (∀ m rest, goContains m "closed" = true →
      HandleListenerLoop (.acceptErr false m :: rest) = ⟨some (.shutdown m), 0, 0, 0⟩) := by
  refine ⟨rfl, fun s => rfl, ?_, ?_⟩
  · intro s h
    simp [IsShutdownError, h]
  · intro m rest h
    have hs : IsShutdownError (some m) = true := by simp [IsShutdownError, h]
    simp [HandleListenerLoop, hs]

/-- Witness for C9 at a concrete accept-error message whose only match
is the bare substring "closed". -/
theorem isShutdownError_spec_witness :
    goContains "connection closed by peer" "closed" = true ∧
    IsShutdownError (some "connection closed by peer") = true ∧
    HandleListenerLoop [.acceptErr false "connection closed by peer"] =
      ⟨some (.shutdown "connection closed by peer"), 0, 0, 0⟩ :=
  ⟨by decide,
   isShutdownError_spec.2.2.1 "connection closed by peer" (by decide),
   isShutdownError_spec.2.2.2 "connection closed by peer" [] (by decide)⟩

/-- C4: the listener-loop supervisor only ever returns because the
context was done at an accept error (returning `ctx.Err()`) or because
`Accept` produced a shutdown-signature error (returning that error);
an accepted connection — whatever its handler later returns — never
terminates the loop; a context-done accept error returns `ctx.Err()`;
a shutdown-signature accept error returns that error; and any other
accept error leaves the loop running, adding exactly one fixed 100 ms
backoff. -/
theorem handleListenerLoop_resilient :
    (∀ evs ex, (HandleListenerLoop evs).result = some ex →
      ex = .ctxDone ∨ ∃ m, IsShutdownError (some m) = true ∧ ex = .shutdown m) ∧
    (∀ he rest,
      (HandleListenerLoop (.conn he :: rest)).result = (HandleListenerLoop rest).result ∧
      (HandleListenerLoop (.conn he :: rest)).accepted = (HandleListenerLoop rest).accepted + 1) ∧
    (∀ m rest, (HandleListenerLoop (.acceptErr true m :: rest)).result = some .ctxDone) ∧
    (∀ m rest, IsShutdownError (some m) = true →
      (HandleListenerLoop (.acceptErr false m :: rest)).result = some (.shutdown m)) ∧
    (∀ m rest, IsShutdownError (some m) = false →
      HandleListenerLoop (.acceptErr false m :: rest) =
        ⟨(HandleListenerLoop rest).result, 100 + (HandleListenerLoop rest).backoffMs,
         (HandleListenerLoop rest).handlerErrorsLogged, (HandleListenerLoop rest).accepted⟩) := by
  refine ⟨?_, ?_, ?_, ?_, ?_⟩
  · intro evs
    induction evs with
    | nil =>
        intro ex h
        simp [HandleListenerLoop] at h
    | cons ev rest ih =>
        intro ex h
        cases ev with
        | conn he =>
            exact ih ex (by simpa [HandleListenerLoop] using h)
        | acceptErr cd m =>
            cases cd with
            | true =>
                simp [HandleListenerLoop] at h
                exact Or.inl h.symm
            | false =>
                by_cases hs : IsShutdownError (some m) = true
                · simp [HandleListenerLoop, hs] at h
                  exact Or.inr ⟨m, hs, h.symm⟩
                · have hs0 : IsShutdownError (some m) = false := by
                    revert hs
                    cases IsShutdownError (some m) <;> simp
                  exact ih ex (by simpa [HandleListenerLoop, hs0] using h)
  · intro he rest
    exact ⟨by simp [HandleListenerLoop], by simp [HandleListenerLoop]⟩
  · intro m rest
    simp [HandleListenerLoop]
  · intro m rest hs
    simp [HandleListenerLoop, hs]
  · intro m rest hs
    simp [HandleListenerLoop, hs]

/-- Witness for C4 at concrete event traces: a handler error does not
terminate the loop, a transient accept error only adds a 100 ms backoff,
and context-done / shutdown accept errors terminate it. -/
theorem handleListenerLoop_resilient_witness :
    (HandleListenerLoop [.conn (some "handler blew up")]).result = (HandleListenerLoop []).result ∧
    (HandleListenerLoop [.acceptErr true "any"]).result = some .ctxDone ∧
    (HandleListenerLoop [.acceptErr false "listener closed"]).result = some (.shutdown "listener closed") ∧
    HandleListenerLoop [.acceptErr false "transient fault"] =
      ⟨(HandleListenerLoop []).result, 100 + (HandleListenerLoop []).backoffMs,
       (HandleListenerLoop []).handlerErrorsLogged, (HandleListenerLoop []).accepted⟩ :=
  ⟨(handleListenerLoop_resilient.2.1 (some "handler blew up") []).1,
   handleListenerLoop_resilient.2.2.1 "any" [],
   handleListenerLoop_resilient.2.2.2.1 "listener closed" [] (by decide),
   handleListenerLoop_resilient.2.2.2.2 "transient fault" [] (by decide)⟩

/-- C2: once a peer has been accepted on the unix listener,
`BridgeConnections` returns on the first firing select arm — the
context's error when `ctx.Done()` fires first, and the finishing copy
direction's error (nil on clean EOF) when a copy direction finishes
first — and its observable return is independent of the other copy
direction's eventual outcome (it does not wait for it). -/
theorem bridgeConnections_first_event (env : BridgeEnv)
    (h : env.acceptOutcome = some (.ok ())) :
    (env.firstEvent = .ctxFired → BridgeConnections env = some ⟨some env.ctxErr, true⟩) ∧
    (∀ d e, env.firstEvent = .copyDone d e → BridgeConnections env = some ⟨e, true⟩) ∧
    (∀ ev, BridgeConnections { env with secondEvent := ev } = BridgeConnections env) := by
  refine ⟨?_, ?_, fun ev => rfl⟩
  · intro hf
    simp [BridgeConnections, h, hf]
  · intro d e hf
    simp [BridgeConnections, h, hf]

/-- Witness for C2: a bridge whose TCP-to-unix copy finishes first with
clean EOF returns nil without consulting the other direction. -/
theorem bridgeConnections_first_event_witness :
    BridgeConnections ⟨false, some (.ok ()), .ctxCanceled, .copyDone .tcpToUnix none, .ctxFired⟩ =
      some ⟨none, true⟩ :=
  (bridgeConnections_first_event
      ⟨false, some (.ok ()), .ctxCanceled, .copyDone .tcpToUnix none, .ctxFired⟩ rfl).2.1
    .tcpToUnix none rfl

/-- C3 (failing input): the source enters `unixListener.Accept()` before
any select on `ctx.Done()`, so a call whose context is already cancelled
but on whose listener no peer ever connects stays blocked in `Accept`
forever — it never returns at all, and in particular does not return the
context's cancellation error within a bounded time.  This contradicts
the repository's own test, which cancels the context with no peer
connected and asserts the context error is returned. -/
theorem bridgeConnections_cancelled_before_peer_blocks :
    BridgeConnections ⟨true, none, .ctxCanceled, .ctxFired, .ctxFired⟩ = none := rfl

/-- C8: on every path on which `BridgeConnections` returns — accept
failure, context cancellation, or either copy direction terminating —
the deferred close of the unix listener has run by the time it returns. -/
theorem bridgeConnections_closes_listener (env : BridgeEnv) (r : BridgeReturn)
    (h : BridgeConnections env = some r) : r.listenerClosed = true := by
  unfold BridgeConnections at h
  cases ha : env.acceptOutcome with
  | none =>
      rw [ha] at h
      exact absurd h (by simp)
  | some x =>
      cases x with
      | error e =>
          rw [ha] at h
          have hr : r = ⟨some (.wrap "failed to accept unix connection" e), true⟩ := by
            simpa using h.symm
          simp [hr]
      | ok u =>
          rw [ha] at h
          cases hf : env.firstEvent with
          | ctxFired =>
              rw [hf] at h
              have hr : r = ⟨some env.ctxErr, true⟩ := by simpa using h.symm
              simp [hr]
          | copyDone d e =>
              rw [hf] at h
              have hr : r = ⟨e, true⟩ := by simpa using h.symm
              simp [hr]

/-- Witness for C8 on a concrete returning path (accept failure). -/
theorem bridgeConnections_closes_listener_witness :
    BridgeConnections ⟨false, some (.error (.msg "listener gone")), .ctxCanceled, .ctxFired, .ctxFired⟩ =
      some ⟨some (.wrap "failed to accept unix connection" (.msg "listener gone")), true⟩ ∧
    (⟨some (.wrap "failed to accept unix connection" (.msg "listener gone")), true⟩ :
      BridgeReturn).listenerClosed = true :=
  ⟨rfl,
   bridgeConnections_closes_listener
     ⟨false, some (.error (.msg "listener gone")), .ctxCanceled, .ctxFired, .ctxFired⟩
     ⟨some (.wrap "failed to accept unix connection" (.msg "listener gone")), true⟩ rfl⟩

/-- C5: when every setup step of `handleShellConnection` succeeds, the
function returns nil regardless of how the bridge ends: a
`context.Canceled` bridge result (like a nil one) produces no warning
log, and any other non-nil bridge error is logged as a warning but never
returned to the caller. -/
theorem handleShellConnection_bridge_errors_contained (env : ShellEnv)
    (h1 : env.socketManagerNil = false) (h2 : env.tmuxManagerNil = false)
    (p : String) (h3 : env.genTempResult = .ok p)
    (h4 : env.createListenerResult = .ok ())
    (w : Nat) (h5 : env.createWindowResult = .ok w)
    (h6 : env.socatResult = none) :
    (handleShellConnection env).result = none ∧
    (env.bridgeResult = some .ctxCanceled →
      (handleShellConnection env).bridgeWarnLogged = false) ∧
    (env.bridgeResult = none →
      (handleShellConnection env).bridgeWarnLogged = false) ∧
    (∀ e, env.bridgeResult = some e → e ≠ .ctxCanceled →
      (handleShellConnection env).bridgeWarnLogged = true) := by
  refine ⟨?_, ?_, ?_, ?_⟩
  · simp [handleShellConnection, h1, h2, h3, h4, h5, h6]
  · intro hb
    simp [handleShellConnection, h1, h2, h3, h4, h5, h6, hb]
  · intro hb
    simp [handleShellConnection, h1, h2, h3, h4, h5, h6, hb]
  · intro e hb hne
    simp [handleShellConnection, h1, h2, h3, h4, h5, h6, hb, hne]

/-- Witness for C5: a fully successful setup whose bridge ends with a
copy error returns nil and logs the warning. -/
theorem handleShellConnection_bridge_errors_contained_witness :
    (handleShellConnection
      ⟨false, false, .ok "/run/nx/1.sock", .ok (), .ok 1, none, none, none,
       some (.msg "broken pipe"), ⟨false, ""⟩⟩).result = none ∧
    (handleShellConnection
      ⟨false, false, .ok "/run/nx/1.sock", .ok (), .ok 1, none, none, none,
       some (.msg "broken pipe"), ⟨false, ""⟩⟩).bridgeWarnLogged = true :=
  ⟨(handleShellConnection_bridge_errors_contained _ rfl rfl "/run/nx/1.sock" rfl rfl 1 rfl rfl).1,
   (handleShellConnection_bridge_errors_contained _ rfl rfl "/run/nx/1.sock" rfl rfl 1 rfl
      rfl).2.2.2 (.msg "broken pipe") rfl (by decide)⟩

/-- C6: when the socket manager or the tmux manager is nil,
`handleShellConnection` returns the corresponding descriptive error
immediately, before generating any socket path, creating any listener,
starting any bridge, creating any tmux window, running the relay
command, or executing any plugin. -/
theorem handleShellConnection_nil_manager (env : ShellEnv)
    (h : env.socketManagerNil = true ∨ env.tmuxManagerNil = true) :
    (env.socketManagerNil = true →
      (handleShellConnection env).result =
        some (.msg "socket manager not initialized - shell functionality disabled")) ∧
    (env.socketManagerNil = false →
      (handleShellConnection env).result =
        some (.msg "tmux manager not initialized - shell functionality disabled")) ∧
    (handleShellConnection env).genTempCalled = false ∧
    (handleShellConnection env).createListenerCalled = false ∧
    (handleShellConnection env).bridgeStarted = false ∧
    (handleShellConnection env).createWindowCalled = false ∧
    (handleShellConnection env).socatCalled = false ∧
    (handleShellConnection env).pluginExecuted = none := by
  by_cases hs : env.socketManagerNil = true
  · refine ⟨fun _ => ?_, fun hf => absurd hs (by simp [hf]), ?_, ?_, ?_, ?_, ?_, ?_⟩ <;>
      simp [handleShellConnection, hs]
  · have hs0 : env.socketManagerNil = false := by
      revert hs
      cases env.socketManagerNil <;> simp
    have ht : env.tmuxManagerNil = true := h.resolve_left (by simp [hs0])
    refine ⟨fun hf => absurd hf (by simp [hs0]), fun _ => ?_, ?_, ?_, ?_, ?_, ?_, ?_⟩ <;>
      simp [handleShellConnection, hs0, ht]

/-- Witness for C6 with a nil socket manager. -/
theorem handleShellConnection_nil_manager_witness :
    (handleShellConnection
      ⟨true, false, .ok "p", .ok (), .ok 0, none, none, none, none, ⟨false, ""⟩⟩).result =
      some (.msg "socket manager not initialized - shell functionality disabled") ∧
    (handleShellConnection
      ⟨true, false, .ok "p", .ok (), .ok 0, none, none, none, none, ⟨false, ""⟩⟩).genTempCalled =
      false :=
  ⟨(handleShellConnection_nil_manager _ (Or.inl rfl)).1 rfl,
   (handleShellConnection_nil_manager _ (Or.inl rfl)).2.2.1⟩

/-- C10: with the Auto flag set and a non-empty Exec script configured,
the shell handler runs only the built-in "auto" script — Auto replaces
(does not append to) the requested Exec value when selecting the
post-connect script. -/
theorem handleShellConnection_auto_overrides_exec (env : ShellEnv)
    (h1 : env.socketManagerNil = false) (h2 : env.tmuxManagerNil = false)
    (p : String) (h3 : env.genTempResult = .ok p)
    (h4 : env.createListenerResult = .ok ())
    (w : Nat) (h5 : env.createWindowResult = .ok w)
    (h6 : env.socatResult = none)
    (hAuto : env.cfg.Auto = true) (_hExec : env.cfg.Exec ≠ "") :
    resolveExecPlugin env.cfg = "auto" ∧
    (handleShellConnection env).pluginExecuted = some "auto" ∧
    (env.cfg.Exec ≠ "auto" →
      (handleShellConnection env).pluginExecuted ≠ some env.cfg.Exec) := by
  have hr : resolveExecPlugin env.cfg = "auto" := by simp [resolveExecPlugin, hAuto]
  have he : (handleShellConnection env).pluginExecuted = some "auto" := by
    simp [handleShellConnection, h1, h2, h3, h4, h5, h6, hr]
  refine ⟨hr, he, ?_⟩
  intro hne hcontra
  rw [he] at hcontra
  exact hne (Option.some.inj hcontra).symm

/-- Witness for C10: Auto set together with an explicit Exec value
"linpeas" still runs only "auto". -/
theorem handleShellConnection_auto_overrides_exec_witness :
    resolveExecPlugin ⟨true, "linpeas"⟩ = "auto" ∧
    (handleShellConnection
      ⟨false, false, .ok "/run/nx/2.sock", .ok (), .ok 2, none, none, none, none,
       ⟨true, "linpeas"⟩⟩).pluginExecuted = some "auto" :=
  ⟨(handleShellConnection_auto_overrides_exec
      ⟨false, false, .ok "/run/nx/2.sock", .ok (), .ok 2, none, none, none, none,
       ⟨true, "linpeas"⟩⟩ rfl rfl "/run/nx/2.sock" rfl rfl 2 rfl rfl rfl (by decide)).1,
   (handleShellConnection_auto_overrides_exec
      ⟨false, false, .ok "/run/nx/2.sock", .ok (), .ok 2, none, none, none, none,
       ⟨true, "linpeas"⟩⟩ rfl rfl "/run/nx/2.sock" rfl rfl 2 rfl rfl rfl (by decide)).2.1⟩

/-- `startsWithL` holds of a list against any extension of itself. -/
theorem startsWithL_append (a t : List Char) : startsWithL a (a ++ t) = true := by
  induction a with
  | nil => rfl
  | cons c cs ih => simp [startsWithL, ih]

/-- The temp path built for a candidate name starts with the socket
directory followed by the path separator. -/
theorem startsWithL_mkSockPath (dir r : Path) :
    startsWithL (dir ++ ['/']) (mkSockPath dir r) = true := by
  have h : mkSockPath dir r = (dir ++ ['/']) ++ (r ++ ".sock".toList) := by
    simp [mkSockPath]
  rw [h]
  exact startsWithL_append (dir ++ ['/']) (r ++ ".sock".toList)

/-- Distinct candidate names give distinct temp paths (the directory and
the ".sock" suffix are fixed). -/
theorem mkSockPath_inj (dir : Path) {r1 r2 : Path}
    (h : mkSockPath dir r1 = mkSockPath dir r2) : r1 = r2 := by
  unfold mkSockPath at h
  have h1 := List.append_cancel_left h
  injection h1 with _ h2
  exact List.append_cancel_right h2

/-- Filtering out every occurrence of a path leaves a list that does not
contain it. -/
theorem contains_filter_not_beq (p : Path) (l : List Path) :
    (l.filter (fun q => !(q == p))).contains p = false := by
  induction l with
  | nil => rfl
  | cons a as ih =>
      by_cases hap : a = p
      · subst hap
        simp [List.filter_cons, ih]
      · have hfa : (a == p) = false := by simp [hap]
        simp [List.filter_cons, hfa, List.contains_cons, beq_iff_eq, Ne.symm hap, ih]

/-- A path does not exist after it is removed. -/
theorem fileExists_removeFile (p : Path) (fs : FsState) :
    fileExists p (removeFile p fs) = false :=
  contains_filter_not_beq p fs.files

/-- A successful `createTemp dir fs rand` consumed an initial segment of
the candidate stream ending at its chosen name, and created exactly that
name's path. -/
theorem createTemp_eq (dir : Path) (fs : FsState) :
    ∀ (rand : List Path) {r : Path} {fs1 : FsState} {rest : List Path},
      createTemp dir fs rand = some (r, fs1, rest) →
      (∃ pre, rand = pre ++ r :: rest) ∧ fs1 = createFile (mkSockPath dir r) fs := by
  intro rand
  induction rand with
  | nil =>
      intro r fs1 rest h
      simp [createTemp] at h
  | cons a as ih =>
      intro r fs1 rest h
      have hdef : createTemp dir fs (a :: as) =
          if fileExists (mkSockPath dir a) fs then createTemp dir fs as
          else some (a, createFile (mkSockPath dir a) fs, as) := rfl
      rw [hdef] at h
      by_cases hex : fileExists (mkSockPath dir a) fs = true
      · rw [if_pos hex] at h
        obtain ⟨⟨pre, hpre⟩, hfs⟩ := ih h
        exact ⟨⟨a :: pre, by rw [hpre]; rfl⟩, hfs⟩
      · rw [if_neg hex] at h
        simp only [Option.some.injEq, Prod.mk.injEq] at h
        obtain ⟨h1, h2, h3⟩ := h
        subst h1
        subst h3
        exact ⟨⟨[], rfl⟩, h2.symm⟩

/-- A successful `GenerateTempFilename` comes from a successful
`createTemp` whose chosen name builds the returned path, the placeholder
having been removed from the returned filesystem. -/
theorem generateTempFilename_eq (dir : Path) (fs : FsState) (rand : List Path)
    {p : Path} {fsOut : FsState} {rest : List Path}
    (h : GenerateTempFilename dir fs rand = some (p, fsOut, rest)) :
    ∃ r fsc, createTemp dir fs rand = some (r, fsc, rest) ∧
      p = mkSockPath dir r ∧ fsOut = removeFile p fsc := by
  unfold GenerateTempFilename at h
  cases hct : createTemp dir fs rand with
  | none =>
      rw [hct] at h
      exact absurd h (by simp)
  | some t =>
      obtain ⟨r, fsc, rest0⟩ := t
      rw [hct] at h
      simp only [Option.some.injEq, Prod.mk.injEq] at h
      obtain ⟨h1, h2, h3⟩ := h
      subst h3
      refine ⟨r, fsc, rfl, h1.symm, ?_⟩
      rw [← h1]
      exact h2.symm

/-- C7 (counterexample): two successful sequential calls of
`GenerateTempFilename` on the same manager can return the same path.
The placeholder file is removed before the call returns, so the name is
no longer claimed, and a temp-name source that proposes the same
candidate again — which the documented `os.CreateTemp` contract permits,
since it only skips names that currently exist — reproduces the very
same path on the second call. -/
theorem generateTempFilename_repeat_counterexample :
    GenerateTempFilename "/nx".toList ⟨[]⟩ ["a".toList, "a".toList] =
      some ("/nx/a.sock".toList, ⟨[]⟩, ["a".toList]) ∧
    GenerateTempFilename "/nx".toList ⟨[]⟩ ["a".toList] =
      some ("/nx/a.sock".toList, ⟨[]⟩, []) := by
  constructor
  · rfl
  · rfl

/-- C7 (amended): for every two successful sequential calls of
`GenerateTempFilename` on the same socket manager whose candidate-name
source does not repeat a name, the two returned paths differ; and
unconditionally each returned path lies inside the manager's private
socket directory and no file exists at the returned path at return time
(the placeholder is removed immediately after creation). -/
theorem generateTempFilename_sequential (dir : Path) (fs : FsState) (rand : List Path)
    (p1 p2 : Path) (fs1 fs2 : FsState) (rand1 rand2 : List Path)
    (hnd : rand.Nodup)
    (hc1 : GenerateTempFilename dir fs rand = some (p1, fs1, rand1))
    (hc2 : GenerateTempFilename dir fs1 rand1 = some (p2, fs2, rand2)) :
    p1 ≠ p2 ∧
    startsWithL (dir ++ ['/']) p1 = true ∧
    startsWithL (dir ++ ['/']) p2 = true ∧
    fileExists p1 fs1 = false ∧
    fileExists p2 fs2 = false := by
  obtain ⟨r1, fsA, hct1, hp1, hfs1⟩ := generateTempFilename_eq dir fs rand hc1
  obtain ⟨r2, fsB, hct2, hp2, hfs2⟩ := generateTempFilename_eq dir fs1 rand1 hc2
  obtain ⟨⟨pre1, hpre1⟩, _⟩ := createTemp_eq dir fs rand hct1
  obtain ⟨⟨pre2, hpre2⟩, _⟩ := createTemp_eq dir fs1 rand1 hct2
  have hnd1 : (r1 :: rand1).Nodup := by
    rw [hpre1] at hnd
    exact hnd.of_append_right
  have hr1notin : r1 ∉ rand1 := (List.nodup_cons.mp hnd1).1
  have hr2in : r2 ∈ rand1 := by
    rw [hpre2]
    exact List.mem_append_right _ (List.mem_cons_self _ _)
  have hne : r1 ≠ r2 := fun he => hr1notin (he ▸ hr2in)
  refine ⟨?_, ?_, ?_, ?_, ?_⟩
  · intro hpp
    exact hne (mkSockPath_inj dir (by rw [← hp1, ← hp2]; exact hpp))
  · rw [hp1]
    exact startsWithL_mkSockPath dir r1
  · rw [hp2]
    exact startsWithL_mkSockPath dir r2
  · rw [hfs1]
    exact fileExists_removeFile p1 fsA
  · rw [hfs2]
    exact fileExists_removeFile p2 fsB

/-- Witness for the amended C7 with the fresh candidate names "a" then
"b" on an initially empty directory. -/
theorem generateTempFilename_sequential_witness :
    "/nx/a.sock".toList ≠ "/nx/b.sock".toList ∧
    startsWithL ("/nx".toList ++ ['/']) "/nx/a.sock".toList = true ∧
    startsWithL ("/nx".toList ++ ['/']) "/nx/b.sock".toList = true ∧
    fileExists "/nx/a.sock".toList ⟨[]⟩ = false ∧
    fileExists "/nx/b.sock".toList ⟨[]⟩ = false :=
  generateTempFilename_sequential "/nx".toList ⟨[]⟩ ["a".toList, "b".toList]
    "/nx/a.sock".toList "/nx/b.sock".toList ⟨[]⟩ ⟨[]⟩ ["b".toList] []
    (by decide) rfl rfl

end Nx
